import Mathlib

/-!
Shallow embedding of the clause-builder core of the elastic-builder
repository: the boolean compound query (src/queries/compound-queries/
bool-query.js), the has-child joining query, and the shared validation and
recursive-serialization helpers, together with theorems settling the
specification claims about them.

JavaScript objects are modelled as insertion-ordered association lists; JS
exceptions as an `Option JsErr` result paired with the post-call state (a
thrown exception does not roll back mutations already performed).
-/

namespace EB

/-- A plain document value, the output of `toJSON`: JSON values plus
JavaScript `undefined`, which a JS object can hold as a stored property
value. -/
inductive Doc where
  | undef
  | null
  | bool (b : Bool)
  | num (n : Int)
  | str (s : String)
  | arr (xs : List Doc)
  | obj (fields : List (String × Doc))

/-- Property read on a JS object (association list): the first binding of the
key, if any. -/
def jsGet {α : Type} : List (String × α) → String → Option α
  | [], _ => none
  | (k1, v1) :: rest, k => if k1 = k then some v1 else jsGet rest k

/-- Property assignment on a JS object: overwrite in place when the key is
present, append a new binding otherwise (JS string-keyed property order is
insertion order). -/
def jsSet {α : Type} : List (String × α) → String → α → List (String × α)
  | [], k, v => [(k, v)]
  | (k1, v1) :: rest, k, v =>
      if k1 = k then (k1, v) :: rest else (k1, v1) :: jsSet rest k v

/-- lodash `_.has(obj, key)`: the key is present. -/
def jsHas {α : Type} (o : List (String × α)) (k : String) : Bool :=
  (jsGet o k).isSome

/-- Modelled from the spec: the Base Clause (`Query` in src/core, not present
under src/) is a named clause holding an immutable `type` tag and an options
map; a leaf clause's options are plain document values. -/
structure Query where
  tag : String
  opts : List (String × Doc)

/-- Modelled from the spec: Base Clause `serialize()` produces the single-key
document mapping the type tag to the recursively serialized options map; a
leaf clause's options are plain values, which the Recursive Serializer passes
through unchanged. -/
def Query.toJSON (q : Query) : Doc :=
  Doc.obj [(q.tag, Doc.obj q.opts)]

/-- A JavaScript value as passed to a setter: `undefined`, `null`, a
primitive, a `Query` instance, or an array. -/
inductive JSVal where
  | undef
  | jnull
  | boolean (b : Bool)
  | number (n : Int)
  | string (s : String)
  | q (qr : Query)
  | array (xs : List JSVal)

mutual

/-- Modelled from the spec: the Recursive Serializer `recursiveToJSON`
(src/core/util.js, not present under src/): a clause is asked for its own
document, an array is mapped elementwise, and any other value passes through
unchanged. -/
def recursiveToJSON : JSVal → Doc
  | JSVal.undef => Doc.undef
  | JSVal.jnull => Doc.null
  | JSVal.boolean b => Doc.bool b
  | JSVal.number n => Doc.num n
  | JSVal.string s => Doc.str s
  | JSVal.q qr => qr.toJSON
  | JSVal.array xs => Doc.arr (recursiveToJSONList xs)

/-- Elementwise `recursiveToJSON` over an array's elements, in order. -/
def recursiveToJSONList : List JSVal → List Doc
  | [] => []
  | x :: xs => recursiveToJSON x :: recursiveToJSONList xs

end

/-- The two error kinds of the library: `TypeError` from `checkType` and the
invalid-enum error from the value validator. -/
inductive JsErr where
  | typeMismatch (msg : String)
  | invalidOption (msg : String)
deriving DecidableEq

/-- Modelled from the spec: `checkType(instance, Query)` (src/core/util.js,
not present under src/) throws a `TypeError` when the value is not an
instance of `Query`; on success the value itself is the validated query. -/
def checkTypeQuery : JSVal → Except JsErr Query
  | JSVal.q qr => Except.ok qr
  | _ => Except.error (JsErr.typeMismatch "Argument must be an instance of Query")

/-- A value stored in `BoolQuery._queryOpts`: a clause group (a JS array of
queries) or a plain option value set by a scalar setter. -/
inductive QOpt where
  | clauses (qs : List Query)
  | plain (v : JSVal)

/-- The state of a `BoolQuery` instance: its `_queryOpts` object. The `type`
tag is the constant "bool" fixed by the constructor. -/
structure BoolQuery where
  queryOpts : List (String × QOpt)

/-- `new BoolQuery()`: `super('bool')` leaves the options empty. -/
def BoolQuery.mkNew : BoolQuery := ⟨[]⟩

/-- The queries stored under a clause key (an absent or non-group key reads
as no queries). -/
def BoolQuery.clauseQueries (s : BoolQuery) (clause : String) : List Query :=
  match jsGet s.queryOpts clause with
  | some (QOpt.clauses qs) => qs
  | _ => []

/-- `this._queryOpts[clause].push(query)`. -/
def BoolQuery.pushClause (s : BoolQuery) (clause : String) (qr : Query) : BoolQuery :=
  ⟨jsSet s.queryOpts clause (QOpt.clauses (s.clauseQueries clause ++ [qr]))⟩

/-- `BoolQuery._addQuery(clause, query)`: `checkType(query, Query)` and then
push. The error value carries the (unchanged) post-throw state. -/
def BoolQuery.addQuery (s : BoolQuery) (clause : String) (v : JSVal) :
    Option JsErr × BoolQuery :=
  match checkTypeQuery v with
  | Except.error e => (some e, s)
  | Except.ok qr => (none, s.pushClause clause qr)

/-- `if (!_.has(this._queryOpts, clause)) this._queryOpts[clause] = [];` -/
def BoolQuery.ensureClause (s : BoolQuery) (clause : String) : BoolQuery :=
  if jsHas s.queryOpts clause then s
  else ⟨jsSet s.queryOpts clause (QOpt.clauses [])⟩

/-- lodash `_.invokeMap(queries, qry => this._addQuery(clause, qry))`: with a
function path, lodash calls `path.call(element)` once per element — the
element is bound only to `this` and no positional argument is passed. The
iteratee is an arrow function, which ignores `this`, so its parameter `qry`
is `undefined` on every iteration. A thrown TypeError propagates out and
stops the iteration. -/
def BoolQuery.invokeMapAdd (s : BoolQuery) (clause : String) :
    List JSVal → Option JsErr × BoolQuery
  | [] => (none, s)
  | _ :: rest =>
    match s.addQuery clause JSVal.undef with
    | (none, s1) => s1.invokeMapAdd clause rest
    | (some e, s1) => (some e, s1)

/-- `BoolQuery._addQueries(clause, queries)`: create the group lazily, then
either iterate an array via `_.invokeMap` or add the single value. -/
def BoolQuery.addQueries (s : BoolQuery) (clause : String) (v : JSVal) :
    Option JsErr × BoolQuery :=
  let s1 := s.ensureClause clause
  match v with
  | JSVal.array xs => s1.invokeMapAdd clause xs
  | _ => s1.addQuery clause v

/-- `BoolQuery.must(queries)`; the post-call state is the returned `this`. -/
def BoolQuery.must (s : BoolQuery) (v : JSVal) : Option JsErr × BoolQuery :=
  s.addQueries "must" v

/-- `BoolQuery.filter(queries)`. -/
def BoolQuery.filter (s : BoolQuery) (v : JSVal) : Option JsErr × BoolQuery :=
  s.addQueries "filter" v

/-- `BoolQuery.mustNot(queries)`. -/
def BoolQuery.mustNot (s : BoolQuery) (v : JSVal) : Option JsErr × BoolQuery :=
  s.addQueries "must_not" v

/-- `BoolQuery.should(queries)`. -/
def BoolQuery.should (s : BoolQuery) (v : JSVal) : Option JsErr × BoolQuery :=
  s.addQueries "should" v

/-- `BoolQuery.disableCoord(enable)`. -/
def BoolQuery.disableCoord (s : BoolQuery) (enable : JSVal) : BoolQuery :=
  ⟨jsSet s.queryOpts "disable_coord" (QOpt.plain enable)⟩

/-- `BoolQuery.minimumShouldMatch(minimumShouldMatch)`. -/
def BoolQuery.minimumShouldMatch (s : BoolQuery) (v : JSVal) : BoolQuery :=
  ⟨jsSet s.queryOpts "minimum_should_match" (QOpt.plain v)⟩

/-- `BoolQuery.adjustPureNegative(enable)`. -/
def BoolQuery.adjustPureNegative (s : BoolQuery) (enable : JSVal) : BoolQuery :=
  ⟨jsSet s.queryOpts "adjust_pure_negative" (QOpt.plain enable)⟩

/-- The fixed list of recognized clause groups, in the declaration order used
by `BoolQuery.toJSON`. -/
def boolClauseOrder : List String := ["must", "filter", "must_not", "should"]

/-- One group's entry in the output: `clauseQueries.length === 1 ?
recursiveToJSON(_.head(clauseQueries)) : recursiveToJSON(clauseQueries)`. -/
def BoolQuery.clauseEntry (s : BoolQuery) (clause : String) : Doc :=
  match s.clauseQueries clause with
  | [q1] => recursiveToJSON (JSVal.q q1)
  | qs => recursiveToJSON (JSVal.array (qs.map JSVal.q))

/-- The `cleanQryOpts` object of `BoolQuery.toJSON`: reduce, over the
recognized clauses that are present (in declaration order), appending each
clause's entry to an initially empty object. -/
def BoolQuery.cleanQryOpts (s : BoolQuery) : List (String × Doc) :=
  (boolClauseOrder.filter (fun c => jsHas s.queryOpts c)).foldl
    (fun acc c => acc ++ [(c, s.clauseEntry c)]) []

/-- `BoolQuery.toJSON()`: `{ [this.type]: cleanQryOpts }`. -/
def BoolQuery.toJSON (s : BoolQuery) : Doc :=
  Doc.obj [("bool", Doc.obj s.cleanQryOpts)]

/-- State-passing rendering of the `toJSON()` method call: the method body
contains no assignment to the receiver, so the call returns the document
together with the untouched receiver state. -/
def BoolQuery.toJSONCall (s : BoolQuery) : Doc × BoolQuery :=
  (s.toJSON, s)


/-- The state of a `HasChildQuery` instance: its `_queryOpts` object. The
values are raw JS values because the setters store their argument
unconditionally, `undefined` included. The `type` tag is the constant
"has_child" fixed by the constructor. -/
structure HasChildQuery where
  queryOpts : List (String × JSVal)

/-- `new HasChildQuery(qry, type)`: `super('has_child', ES_REF_URL, qry)` and
then `if (!_.isNil(type)) this._queryOpts.child_type = type;`. The base class
`JoiningQueryBase` is not present under src/ and is Modelled from the spec:
it stores the given child query under the `query` option only when one is
provided (no placeholder key for an absent optional argument). `Option`
stands for the two nil values (`undefined` and `null`) of `_.isNil`. -/
def HasChildQuery.mkNew (qry : Option Query) (ty : Option String) : HasChildQuery :=
  let base : List (String × JSVal) :=
    match qry with
    | some q0 => jsSet [] "query" (JSVal.q q0)
    | none => []
  ⟨match ty with
   | some t => jsSet base "child_type" (JSVal.string t)
   | none => base⟩

/-- `HasChildQuery.childType(type)`: `this._queryOpts.child_type = type`,
with no nil guard — the argument is stored as given. -/
def HasChildQuery.childType (s : HasChildQuery) (ty : JSVal) : HasChildQuery :=
  ⟨jsSet s.queryOpts "child_type" ty⟩

/-- `HasChildQuery.type(type)`: alias, `return this.childType(type);`. -/
def HasChildQuery.type (s : HasChildQuery) (ty : JSVal) : HasChildQuery :=
  s.childType ty

/-- `HasChildQuery.minChildren(limit)`: `this._queryOpts.min_children = limit`. -/
def HasChildQuery.minChildren (s : HasChildQuery) (limit : JSVal) : HasChildQuery :=
  ⟨jsSet s.queryOpts "min_children" limit⟩

/-- `HasChildQuery.maxChildren(limit)`: `this._queryOpts.max_children = limit`. -/
def HasChildQuery.maxChildren (s : HasChildQuery) (limit : JSVal) : HasChildQuery :=
  ⟨jsSet s.queryOpts "max_children" limit⟩

/-- The options object with every stored value recursively serialized, keys
and order kept. -/
def recursiveOptsToJSON : List (String × JSVal) → List (String × Doc)
  | [] => []
  | (k, v) :: rest => (k, recursiveToJSON v) :: recursiveOptsToJSON rest

/-- Modelled from the spec: the inherited Base Clause `toJSON` of
`HasChildQuery` — the single-key document `{ has_child: <recursively
serialized options> }`. -/
def HasChildQuery.toJSON (s : HasChildQuery) : Doc :=
  Doc.obj [("has_child", Doc.obj (recursiveOptsToJSON s.queryOpts))]

/-- State-passing rendering of the `toJSON()` method call on a
`HasChildQuery`: the method only reads the receiver, so the call returns the
document together with the untouched receiver state. -/
def HasChildQuery.toJSONCall (s : HasChildQuery) : Doc × HasChildQuery :=
  (s.toJSON, s)

/-- Modelled from the spec: the `InvalidOption` message for a two-valued
enumerated option names the parameter and lists the allowed values verbatim. -/
def invalidOptionMsg (param v1 v2 : String) : String :=
  "The '" ++ param ++ "' parameter should be one of '" ++ v1 ++ "' or '" ++ v2 ++ "'"

/-- JavaScript `String.prototype.toLowerCase()` on the model alphabet:
elementwise ASCII lowercasing of the characters. -/
def jsToLowerCase (s : String) : String := ⟨s.data.map Char.toLower⟩

/-- The argument supplied for the sort direction: omitted, JS `null`, or a
string value. -/
inductive DirArg where
  | omitted
  | jsNull
  | val (s : String)

/-- Modelled from the spec: the direction-enum validation performed by
`TermsAggregation.order` (src/aggregations, not present under src/; its test
is src/test/aggregations-test/terms-agg.test.js): an omitted direction
defaults to desc and is accepted; a nil or non-`asc`/`desc` value (compared
case-insensitively) raises `InvalidOption` with the exact message. -/
def validateDirection : DirArg → Except JsErr Unit
  | DirArg.omitted => Except.ok ()
  | DirArg.jsNull => Except.error (JsErr.invalidOption (invalidOptionMsg "direction" "asc" "desc"))
  | DirArg.val s =>
    if jsToLowerCase s = "asc" ∨ jsToLowerCase s = "desc" then Except.ok ()
    else Except.error (JsErr.invalidOption (invalidOptionMsg "direction" "asc" "desc"))

/-- A sample leaf query (a term query on a field). -/
def qTerm1 : Query := ⟨"term", [("user", Doc.str "kimchy")]⟩

/-- A second sample leaf query. -/
def qTerm2 : Query := ⟨"term", [("tag", Doc.str "tech")]⟩

/-- A third sample leaf query. -/
def qTerm3 : Query := ⟨"term", [("tag", Doc.str "search")]⟩

/-- The bool query of the specification scenario: one `must` child added,
then two `should` children, each through a single-query setter call. -/
def boolSample : BoolQuery :=
  (((BoolQuery.mkNew.must (JSVal.q qTerm1)).2.should (JSVal.q qTerm2)).2.should
    (JSVal.q qTerm3)).2


theorem jsGet_jsSet_self {α : Type} (o : List (String × α)) (k : String) (v : α) :
    jsGet (jsSet o k v) k = some v := by
  induction o with
  | nil => simp [jsSet, jsGet]
  | cons p rest ih =>
    obtain ⟨k1, v1⟩ := p
    by_cases h : k1 = k <;> simp [jsSet, jsGet, h, ih]

theorem jsGet_jsSet_ne {α : Type} (o : List (String × α)) (k k' : String) (v : α)
    (h : k' ≠ k) : jsGet (jsSet o k v) k' = jsGet o k' := by
  induction o with
  | nil =>
    simp only [jsSet, jsGet]
    rw [if_neg (fun e => h e.symm)]
  | cons p rest ih =>
    obtain ⟨k1, v1⟩ := p
    by_cases h1 : k1 = k <;> by_cases h2 : k1 = k' <;>
      simp_all [jsSet, jsGet]

theorem jsGet_none_of_has_false {α : Type} (o : List (String × α)) (k : String)
    (h : jsHas o k = false) : jsGet o k = none := by
  unfold jsHas at h
  cases e : jsGet o k with
  | none => rfl
  | some v => rw [e] at h; simp at h

theorem foldl_append_map {β : Type} (l : List String) (f : String → β) :
    ∀ acc : List (String × β),
      l.foldl (fun a c => a ++ [(c, f c)]) acc = acc ++ l.map (fun c => (c, f c)) := by
  induction l with
  | nil => intro acc; simp
  | cons c rest ih => intro acc; simp [List.foldl, ih]

theorem jsGet_map_self {β : Type} (l : List String) (f : String → β) (c : String)
    (hm : c ∈ l) (hn : l.Nodup) :
    jsGet (l.map (fun x => (x, f x))) c = some (f c) := by
  induction l with
  | nil => cases hm
  | cons a rest ih =>
    rcases List.mem_cons.mp hm with h | h
    · subst h; simp [jsGet]
    · have hna : a ≠ c := by
        intro e; subst e; exact (List.nodup_cons.mp hn).1 h
      simp [jsGet, hna, ih h (List.nodup_cons.mp hn).2]

theorem jsGet_map_none {β : Type} (l : List String) (f : String → β) (c : String)
    (hm : c ∉ l) : jsGet (l.map (fun x => (x, f x))) c = none := by
  induction l with
  | nil => rfl
  | cons a rest ih =>
    have hna : a ≠ c := fun e => hm (e ▸ List.mem_cons_self a rest)
    have hr : c ∉ rest := fun hc => hm (List.mem_cons_of_mem a hc)
    simp [jsGet, hna, ih hr]

/-- The `cleanQryOpts` reduce is the present-clause list, in declaration
order, mapped to its entries. -/
theorem cleanQryOpts_eq (s : BoolQuery) :
    s.cleanQryOpts = (boolClauseOrder.filter (fun c => jsHas s.queryOpts c)).map
      (fun c => (c, s.clauseEntry c)) := by
  unfold BoolQuery.cleanQryOpts
  rw [foldl_append_map]
  simp

theorem recursiveToJSONList_map_q (qs : List Query) :
    recursiveToJSONList (qs.map JSVal.q) = qs.map Query.toJSON := by
  induction qs with
  | nil => simp [recursiveToJSONList]
  | cons q rest ih => simp [recursiveToJSONList, recursiveToJSON, ih]

/-- The lazy group creation only reads the options and possibly stores one
binding. -/
theorem ensureClause_queryOpts (s : BoolQuery) (c : String) :
    (s.ensureClause c).queryOpts =
      if jsHas s.queryOpts c = true then s.queryOpts
      else jsSet s.queryOpts c (QOpt.clauses []) := by
  unfold BoolQuery.ensureClause
  by_cases h : jsHas s.queryOpts c = true
  · rw [if_pos h, if_pos h]
  · rw [if_neg h, if_neg h]

theorem clauseQueries_ensureClause (s : BoolQuery) (c c' : String) :
    (s.ensureClause c).clauseQueries c' = s.clauseQueries c' := by
  unfold BoolQuery.clauseQueries
  rw [ensureClause_queryOpts]
  by_cases h : jsHas s.queryOpts c = true
  · rw [if_pos h]
  · rw [if_neg h]
    have hnone : jsGet s.queryOpts c = none :=
      jsGet_none_of_has_false _ _ (by simpa using h)
    by_cases hc : c' = c
    · subst hc
      rw [jsGet_jsSet_self, hnone]
    · rw [jsGet_jsSet_ne _ _ _ _ hc]

/-- C1: serializing a bool clause group holding exactly one clause emits that
child's serialized document as a bare object, while a group holding two or
more clauses emits the ordered array of the children's serialized documents
in append order. -/
theorem C1_bool_group_collapse (s : BoolQuery) (c : String) (qs : List Query)
    (hc : c ∈ boolClauseOrder) (hq : jsGet s.queryOpts c = some (QOpt.clauses qs)) :
    (∀ q1, qs = [q1] → jsGet s.cleanQryOpts c = some (Query.toJSON q1)) ∧
    (2 ≤ qs.length →
      jsGet s.cleanQryOpts c = some (Doc.arr (qs.map Query.toJSON))) := by
  have hhas : jsHas s.queryOpts c = true := by unfold jsHas; rw [hq]; rfl
  have hmem : c ∈ boolClauseOrder.filter (fun x => jsHas s.queryOpts x) :=
    List.mem_filter.mpr ⟨hc, hhas⟩
  have hnd : (boolClauseOrder.filter (fun x => jsHas s.queryOpts x)).Nodup :=
    List.Nodup.filter _ (by decide)
  have hget : jsGet s.cleanQryOpts c = some (s.clauseEntry c) := by
    rw [cleanQryOpts_eq]; exact jsGet_map_self _ _ _ hmem hnd
  have hcq : s.clauseQueries c = qs := by
    unfold BoolQuery.clauseQueries; rw [hq]
  constructor
  · rintro q1 rfl
    rw [hget]
    unfold BoolQuery.clauseEntry
    rw [hcq]
    simp [recursiveToJSON]
  · intro hlen
    rw [hget]
    unfold BoolQuery.clauseEntry
    rw [hcq]
    match qs, hlen with
    | q1 :: q2 :: rest, _ =>
      simp [recursiveToJSON, recursiveToJSONList, recursiveToJSONList_map_q]

/-- C1 witness: in the spec scenario bool query (one must child, then two
should children), the must group serializes as the bare child document and
the should group as the two-element array in append order. -/
theorem C1_bool_group_collapse_witness :
    jsGet boolSample.cleanQryOpts "must" = some (Query.toJSON qTerm1) ∧
    jsGet boolSample.cleanQryOpts "should" =
      some (Doc.arr (List.map Query.toJSON [qTerm2, qTerm3])) :=
  ⟨(C1_bool_group_collapse boolSample "must" [qTerm1] (by decide) rfl).1 qTerm1 rfl,
   (C1_bool_group_collapse boolSample "should" [qTerm2, qTerm3] (by decide) rfl).2
     (by decide)⟩


/-- C2 (amended): a group whose key is absent from the options never appears
in the serialized document; but a group key created by a setter call that
added no clause (an empty-list or failing call) is present and is emitted as
an empty array. -/
theorem C2_absent_group_omitted (s : BoolQuery) (c : String) :
    (jsGet s.queryOpts c = none → jsGet s.cleanQryOpts c = none) ∧
    (c ∈ boolClauseOrder → jsGet s.queryOpts c = some (QOpt.clauses []) →
      jsGet s.cleanQryOpts c = some (Doc.arr [])) := by
  constructor
  · intro h
    rw [cleanQryOpts_eq]
    apply jsGet_map_none
    intro hmem
    have hh := (List.mem_filter.mp hmem).2
    unfold jsHas at hh
    rw [h] at hh
    simp at hh
  · intro hc hq
    have hhas : jsHas s.queryOpts c = true := by unfold jsHas; rw [hq]; rfl
    have hmem : c ∈ boolClauseOrder.filter (fun x => jsHas s.queryOpts x) :=
      List.mem_filter.mpr ⟨hc, hhas⟩
    have hnd : (boolClauseOrder.filter (fun x => jsHas s.queryOpts x)).Nodup :=
      List.Nodup.filter _ (by decide)
    rw [cleanQryOpts_eq, jsGet_map_self _ _ _ hmem hnd]
    have hcq : s.clauseQueries c = [] := by
      unfold BoolQuery.clauseQueries; rw [hq]
    unfold BoolQuery.clauseEntry
    rw [hcq]
    simp [recursiveToJSON, recursiveToJSONList]

/-- C2 counterexample: calling `must` with an empty list adds no child clause
to the group, yet the serialized document emits the must group, as an empty
array — refuting that a group without children never appears. -/
theorem C2_empty_list_creates_group :
    (BoolQuery.mkNew.must (JSVal.array [])).1 = none ∧
    (BoolQuery.mkNew.must (JSVal.array [])).2.toJSON =
      Doc.obj [("bool", Doc.obj [("must", Doc.arr [])])] :=
  ⟨rfl, rfl⟩

/-- C3 (amended): a setter call with an invalid argument throws before any
clause is appended and leaves every group content unchanged, but it is not
free of mutation: the targeted group key has already been created (empty)
before validation runs. -/
theorem C3_failing_setter_state (s : BoolQuery) (c : String) :
    (∀ v e, checkTypeQuery v = Except.error e → (∀ xs, v ≠ JSVal.array xs) →
      s.addQueries c v = (some e, s.ensureClause c)) ∧
    (∀ x xs, s.addQueries c (JSVal.array (x :: xs)) =
      (some (JsErr.typeMismatch "Argument must be an instance of Query"),
        s.ensureClause c)) ∧
    (∀ c', (s.ensureClause c).clauseQueries c' = s.clauseQueries c') := by
  refine ⟨?_, fun x xs => rfl, fun c' => clauseQueries_ensureClause s c c'⟩
  intro v e he hv
  cases v with
  | undef =>
    simp only [checkTypeQuery, Except.error.injEq] at he
    subst he; rfl
  | jnull =>
    simp only [checkTypeQuery, Except.error.injEq] at he
    subst he; rfl
  | boolean b =>
    simp only [checkTypeQuery, Except.error.injEq] at he
    subst he; rfl
  | number n =>
    simp only [checkTypeQuery, Except.error.injEq] at he
    subst he; rfl
  | string t =>
    simp only [checkTypeQuery, Except.error.injEq] at he
    subst he; rfl
  | q qr => simp [checkTypeQuery] at he
  | array xs => exact absurd rfl (hv xs)

/-- C3 counterexample: on a fresh bool query, `must` with the number 5 throws
the TypeError, but the instance state after the failed call differs from the
state before it — the failed call created the empty must group. -/
theorem C3_failed_setter_mutates :
    (BoolQuery.mkNew.must (JSVal.number 5)).1 =
      some (JsErr.typeMismatch "Argument must be an instance of Query") ∧
    (BoolQuery.mkNew.must (JSVal.number 5)).2 ≠ BoolQuery.mkNew :=
  ⟨rfl, fun h => nomatch congrArg BoolQuery.queryOpts h⟩

theorem keys_of_map_pair {β : Type} (l : List String) (f : String → β) :
    (l.map (fun x => (x, f x))).map Prod.fst = l := by
  induction l with
  | nil => rfl
  | cons a rest ih => simp [ih]

/-- C4: the groups of the serialized document appear in the fixed declaration
order must, filter, must_not, should, and the document depends only on the
stored group contents — hence is independent of the order of setter calls. -/
theorem C4_group_declaration_order (s t : BoolQuery) :
    s.cleanQryOpts.map Prod.fst =
      boolClauseOrder.filter (fun c => jsHas s.queryOpts c) ∧
    ((∀ c ∈ boolClauseOrder, jsGet s.queryOpts c = jsGet t.queryOpts c) →
      s.toJSON = t.toJSON) := by
  constructor
  · rw [cleanQryOpts_eq]
    exact keys_of_map_pair _ _
  · intro h
    have hfil : boolClauseOrder.filter (fun c => jsHas s.queryOpts c) =
        boolClauseOrder.filter (fun c => jsHas t.queryOpts c) := by
      apply List.filter_congr
      intro c hc
      unfold jsHas
      rw [h c hc]
    have hclean : s.cleanQryOpts = t.cleanQryOpts := by
      rw [cleanQryOpts_eq, cleanQryOpts_eq, hfil]
      apply List.map_congr_left
      intro c hc
      have hc1 : c ∈ boolClauseOrder := (List.mem_filter.mp hc).1
      have hcq : s.clauseQueries c = t.clauseQueries c := by
        unfold BoolQuery.clauseQueries
        rw [h c hc1]
      unfold BoolQuery.clauseEntry
      rw [hcq]
    unfold BoolQuery.toJSON
    rw [hclean]


theorem jsGet_recursiveOptsToJSON (o : List (String × JSVal)) (k : String) :
    jsGet (recursiveOptsToJSON o) k = (jsGet o k).map recursiveToJSON := by
  induction o with
  | nil => rfl
  | cons p rest ih =>
    obtain ⟨k1, v1⟩ := p
    by_cases h : k1 = k <;> simp [recursiveOptsToJSON, jsGet, h, ih]

/-- C5 (amended): the constructor optional arguments are nil-guarded — an
absent argument stores no key, and the key is then absent from the serialized
options document — but the childType/type, minChildren and maxChildren
setters store their argument unconditionally, so a call with undefined stores
an undefined-valued placeholder key. -/
theorem C5_optional_option_behavior :
    (∀ q : Option Query,
      jsGet (HasChildQuery.mkNew q none).queryOpts "child_type" = none) ∧
    (∀ q : Option Query,
      jsGet (recursiveOptsToJSON (HasChildQuery.mkNew q none).queryOpts)
        "child_type" = none) ∧
    (∀ (s : HasChildQuery) (v : JSVal),
      jsGet (s.childType v).queryOpts "child_type" = some v) ∧
    (∀ (s : HasChildQuery) (v : JSVal),
      jsGet (s.minChildren v).queryOpts "min_children" = some v) ∧
    (∀ (s : HasChildQuery) (v : JSVal),
      jsGet (s.maxChildren v).queryOpts "max_children" = some v) := by
  refine ⟨fun q => ?_, fun q => ?_, fun s v => jsGet_jsSet_self _ _ _,
    fun s v => jsGet_jsSet_self _ _ _, fun s v => jsGet_jsSet_self _ _ _⟩
  · cases q <;> rfl
  · cases q <;> rfl

/-- C5 counterexample: `childType(undefined)` on a fresh has-child query
stores the child_type key with value undefined, and the serialized document
contains that key — the setter is not a no-op on an undefined optional
argument. -/
theorem C5_undef_setter_stores_key :
    jsGet ((HasChildQuery.mkNew none none).childType JSVal.undef).queryOpts
      "child_type" = some JSVal.undef ∧
    ((HasChildQuery.mkNew none none).childType JSVal.undef).toJSON =
      Doc.obj [("has_child", Doc.obj [("child_type", Doc.undef)])] :=
  ⟨rfl, rfl⟩

/-- C6: evaluation at the failing input: a `must` call whose array argument
holds exactly one valid Query (second conjunct) still raises the TypeError,
because lodash invokeMap invokes the arrow iteratee with the element bound
only to `this` and no positional argument, so every item is seen as
undefined; the claim — and the method's own JSDoc `@throws` contract — say a
call whose items are all Clauses must not raise. -/
theorem C6_array_of_valid_queries_throws :
    (BoolQuery.mkNew.must (JSVal.array [JSVal.q qTerm1])).1 =
      some (JsErr.typeMismatch "Argument must be an instance of Query") ∧
    checkTypeQuery (JSVal.q qTerm1) = Except.ok qTerm1 :=
  ⟨rfl, rfl⟩

/-- C7: an allowed direction value in any letter-casing is accepted; a
disallowed value — null included — is rejected with the InvalidOption error
carrying exactly the documented message. -/
theorem C7_direction_enum_validation :
    (∀ s : String, jsToLowerCase s = "asc" ∨ jsToLowerCase s = "desc" →
      validateDirection (DirArg.val s) = Except.ok ()) ∧
    (∀ s : String, ¬(jsToLowerCase s = "asc" ∨ jsToLowerCase s = "desc") →
      validateDirection (DirArg.val s) = Except.error (JsErr.invalidOption
        "The 'direction' parameter should be one of 'asc' or 'desc'")) ∧
    validateDirection DirArg.jsNull = Except.error (JsErr.invalidOption
      "The 'direction' parameter should be one of 'asc' or 'desc'") ∧
    validateDirection (DirArg.val "ASC") = Except.ok () ∧
    validateDirection (DirArg.val "DESC") = Except.ok () ∧
    validateDirection (DirArg.val "invalid_direction") = Except.error
      (JsErr.invalidOption
        "The 'direction' parameter should be one of 'asc' or 'desc'") := by
  refine ⟨fun s hs => ?_, fun s hs => ?_, rfl, rfl, rfl, rfl⟩
  · simp only [validateDirection]
    rw [if_pos hs]
  · simp only [validateDirection]
    rw [if_neg hs]
    rfl

/-- C8: serialization is a pure read of the clause state: the translated
toJSON call leaves the receiver untouched, and two calls with no intervening
mutation return structurally equal documents — for the bool compound clause
and the has-child clause alike. -/
theorem C8_serialize_pure_idempotent :
    (∀ s : BoolQuery, s.toJSONCall.2 = s ∧
      (s.toJSONCall.2).toJSONCall.1 = s.toJSONCall.1) ∧
    (∀ h : HasChildQuery, h.toJSONCall.2 = h ∧
      (h.toJSONCall.2).toJSONCall.1 = h.toJSONCall.1) :=
  ⟨fun s => ⟨rfl, rfl⟩, fun h => ⟨rfl, rfl⟩⟩

/-- C9: two single-query `must` calls accumulate in append order (first
conjunct), but evaluation at the failing input shows the array form throws
on a valid Query and appends nothing: the documented accumulate behavior for
array arguments is broken by the lodash invokeMap iteratee receiving no
argument. -/
theorem C9_accumulation_and_array_failure :
    ((BoolQuery.mkNew.must (JSVal.q qTerm1)).2.must
        (JSVal.q qTerm2)).2.clauseQueries "must" = [qTerm1, qTerm2] ∧
    ((BoolQuery.mkNew.must (JSVal.q qTerm1)).2.must
        (JSVal.array [JSVal.q qTerm2])).1 =
      some (JsErr.typeMismatch "Argument must be an instance of Query") ∧
    ((BoolQuery.mkNew.must (JSVal.q qTerm1)).2.must
        (JSVal.array [JSVal.q qTerm2])).2.clauseQueries "must" = [qTerm1] :=
  ⟨rfl, rfl, rfl⟩

/-- C10: `HasChildQuery.type` delegates to `childType`: for every state and
argument the two calls produce identical states, the argument is stored under
the child_type option, and every other option is left unchanged. -/
theorem C10_type_alias_childType (s : HasChildQuery) (v : JSVal) :
    s.type v = s.childType v ∧
    jsGet (s.type v).queryOpts "child_type" = some v ∧
    (∀ k, k ≠ "child_type" → jsGet (s.type v).queryOpts k = jsGet s.queryOpts k) :=
  ⟨rfl, jsGet_jsSet_self _ _ _, fun k hk => jsGet_jsSet_ne _ _ _ _ hk⟩

end EB
